import Mathlib

/-!
Shallow embedding of the `ablent-dash` personal status dashboard
(`src/app.py`) and verification of its specification claims.

Python strings are modelled as `List Char`; Python `datetime` values
are modelled as integer timestamps counted in seconds, so that
`(now - file_date).days` becomes floor division of the difference by
86400 (Python's `timedelta.days` rounds toward minus infinity, which
is `Int.fdiv`).  File-system reads are modelled by passing the observed
file contents as explicit arguments: `Option` marks file absence, and a
nested `Option` marks a read/parse failure where the code swallows
exceptions.
-/

namespace AblentDash

/-- Python strings are lists of characters. -/
abbrev Str := List Char

/-- Coercion from Lean string literals to the model's string type. -/
def str (s : String) : Str := s.data

/-- Whitespace characters recognised by Python's `str.strip()`. -/
def isWs (c : Char) : Bool :=
  c = ' ' || c = '\t' || c = '\n' || c = '\r' || c = '\x0b' || c = '\x0c'

/-- Python `s.lstrip()` (no argument): drop leading whitespace. -/
def lstripWs (s : Str) : Str := s.dropWhile isWs

/-- Python `s.rstrip()` (no argument): drop trailing whitespace. -/
def rstripWs (s : Str) : Str := (s.reverse.dropWhile isWs).reverse

/-- Python `s.strip()` (no argument): drop leading and trailing whitespace. -/
def strip (s : Str) : Str := rstripWs (lstripWs s)

/-- Python `s.lstrip(cs)`: drop leading characters that belong to the
character set `cs` (Python treats the argument as a set of characters,
not as a literal to remove). -/
def lstripSet (cs : Str) (s : Str) : Str := s.dropWhile (fun c => cs.contains c)

/-- Python `s.lower()`, on the ASCII characters the dashboard cares about. -/
def lower (s : Str) : Str := s.map Char.toLower

/-- Python `pat in s`: substring containment test. -/
def containsSub (pat : Str) : Str → Bool
  | [] => pat.isEmpty
  | c :: rest => pat.isPrefixOf (c :: rest) || containsSub pat rest

/-- JSON values, as produced by `json.loads`. -/
inductive Json where
  | num (n : Int)
  | jstr (s : Str)
  | jbool (b : Bool)
  | null
  | arr (elems : List Json)
  | obj (fields : List (Str × Json))

/-- Python `d.get(key, dflt)` on a parsed JSON object. -/
def jget (fields : List (Str × Json)) (key : Str) (dflt : Json) : Json :=
  match fields.find? (fun kv => kv.1 == key) with
  | some kv => kv.2
  | none => dflt

/-- The persisted `token_usage` counters of `data.json`. -/
structure TokenUsage where
  total : Int
  today : Int
  week : Int
deriving DecidableEq

/-- One entry of the todo list: heartbeat-derived entries carry
`source = some heartbeatSource`, API-posted entries have no `source`
key, modelled as `none`. -/
structure TodoItem where
  task : Str
  done : Bool
  source : Option Str
deriving DecidableEq

/-- The persisted-state document `data.json` (see `load_data`). -/
structure PersistedState where
  token_usage : TokenUsage
  achievements_24h : List Str
  achievements_week : List Str
  todo : List TodoItem
  last_updated : Option Int
deriving DecidableEq

/-- `save_data`: stamp `last_updated` with the current time and rewrite
the whole document (the rewrite itself is the function's result). -/
def save_data (now : Int) (data : PersistedState) : PersistedState :=
  { data with last_updated := some now }

/-- The persisted counters as a JSON triple, used as the fallback of
`get_token_usage` (the stored counters are integers). -/
def storedTriple (data : PersistedState) : Json × Json × Json :=
  (Json.num data.token_usage.total,
   Json.num data.token_usage.today,
   Json.num data.token_usage.week)

/-- `get_token_usage`: `statsFile` is the observed outcome for
`WORKSPACE/.openclaw/stats.json` — `none` when the file is absent,
`some none` when reading or `json.loads` raises, `some (some j)` when it
parses to `j`.  On a parsed JSON object the three `*_tokens` keys are
read with default `0`; on any other parsed value, Python's `.get` raises
`AttributeError`, the bare `except` swallows it, and the persisted
counters win, exactly as for absence or a parse failure. -/
def get_token_usage (statsFile : Option (Option Json)) (data : PersistedState) :
    Json × Json × Json :=
  match statsFile with
  | some (some (Json.obj fields)) =>
      (jget fields (str "total_tokens") (Json.num 0),
       jget fields (str "today_tokens") (Json.num 0),
       jget fields (str "week_tokens") (Json.num 0))
  | some (some _) => storedTriple data
  | some none => storedTriple data
  | none => storedTriple data

/-- The achievement-line marker test of `get_achievements`:
`line.startswith("- [x]") or line.startswith("✓") or "completed" in line.lower()`
(applied to the stripped line). -/
def hasMarker (s : Str) : Bool :=
  (str "- [x]").isPrefixOf s || (str "✓").isPrefixOf s ||
    containsSub (str "completed") (lower s)

/-- The character set of `line.lstrip("- [x]✓ ")`. -/
def achievementStripChars : Str := str "- [x]✓ "

/-- The per-line extraction of `get_achievements`: strip the line, test
the marker, remove leading characters from the set `"- [x]✓ "`, strip
again, and discard empty results. -/
def extractAchievement (line : Str) : Option Str :=
  let s := strip line
  if hasMarker s then
    let a := strip (lstripSet achievementStripChars s)
    if a = [] then none else some a
  else none

/-- A markdown note file of the memory directory: `date` is the file
name's stem parsed by `strptime(.., "%Y-%m-%d")` as a (midnight)
timestamp in seconds, or `none` when parsing (or reading the file)
raises, in which case the `except: continue` skips the file; `lines` is
`content.split("\n")`. -/
structure NoteFile where
  date : Option Int
  lines : List Str
deriving DecidableEq

/-- Seconds per day, the unit of `timedelta.days`. -/
def secondsPerDay : Int := 86400

/-- Python `(now - file_date).days`: floor division of the difference by
one day. -/
def daysBetween (now fileDate : Int) : Int :=
  (now - fileDate).fdiv secondsPerDay

/-- The contribution of one note file to the 24-hour pre-dedup list:
its extracted achievements when `(now - file_date).days < 1`. -/
def fileAchievements24h (now : Int) (f : NoteFile) : List Str :=
  match f.date with
  | none => []
  | some d =>
      if daysBetween now d < 1 then f.lines.filterMap extractAchievement else []

/-- The contribution of one note file to the 7-day pre-dedup list:
its extracted achievements when `(now - file_date).days < 7`. -/
def fileAchievementsWeek (now : Int) (f : NoteFile) : List Str :=
  match f.date with
  | none => []
  | some d =>
      if daysBetween now d < 7 then f.lines.filterMap extractAchievement else []

/-- The 24-hour list of `get_achievements` before dedup and truncation:
file-derived achievements in iteration order, then the stored
`achievements_24h` list appended by `extend`. -/
def pre24h (now : Int) (files : List NoteFile) (data : PersistedState) : List Str :=
  (files.map (fileAchievements24h now)).flatten ++ data.achievements_24h

/-- The 7-day list of `get_achievements` before dedup and truncation:
file-derived achievements in iteration order, then the stored
`achievements_week` list appended by `extend`. -/
def preWeek (now : Int) (files : List NoteFile) (data : PersistedState) : List Str :=
  (files.map (fileAchievementsWeek now)).flatten ++ data.achievements_week

/-- `get_achievements`: `files` is the memory directory's `*.md` files in
iteration order (empty when the directory is absent).  The final
`list(set(..))[:20]` / `[:50]` is a dedup in unspecified order followed
by truncation; it is modelled by `List.dedup` followed by `take`. -/
def get_achievements (now : Int) (files : List NoteFile) (data : PersistedState) :
    List Str × List Str :=
  ((pre24h now files data).dedup.take 20, (preWeek now files data).dedup.take 50)

/-- The `source` tag of heartbeat-derived todo entries. -/
def heartbeatSource : Str := str "heartbeat"

/-- The per-line parse of `get_todos`: strip the line; `- [ ]` yields a
not-done entry, `- [x]` a done entry, both with the tail `line[5:].strip()`
as task and tagged `source="heartbeat"`; other lines yield nothing. -/
def parseHeartbeatLine (line : Str) : Option TodoItem :=
  let s := strip line
  if (str "- [ ]").isPrefixOf s then
    some ⟨strip (s.drop 5), false, some heartbeatSource⟩
  else if (str "- [x]").isPrefixOf s then
    some ⟨strip (s.drop 5), true, some heartbeatSource⟩
  else none

/-- The todo entries derived from `HEARTBEAT.md` (`none` when the file is
absent; otherwise its `content.split("\n")`). -/
def heartbeatTodos (hb : Option (List Str)) : List TodoItem :=
  match hb with
  | none => []
  | some lines => lines.filterMap parseHeartbeatLine

/-- The stored-todo append loop of `get_todos`:
`for todo in data["todo"]: if todo not in todos: todos.append(todo)`,
with `acc` the todos list built so far. -/
def appendStored (acc : List TodoItem) : List TodoItem → List TodoItem
  | [] => acc
  | t :: rest =>
      if t ∈ acc then appendStored acc rest
      else appendStored (acc ++ [t]) rest

/-- The entries the append loop of `get_todos` adds after `acc`: the
stored entries that are not value-equal to anything already present
(where the comparison list grows as entries are appended). -/
def newTodos (acc : List TodoItem) : List TodoItem → List TodoItem
  | [] => []
  | t :: rest =>
      if t ∈ acc then newTodos acc rest
      else t :: newTodos (acc ++ [t]) rest

/-- The todo list of `get_todos` before truncation. -/
def preTodos (hb : Option (List Str)) (stored : List TodoItem) : List TodoItem :=
  appendStored (heartbeatTodos hb) stored

/-- `get_todos`: heartbeat entries, then stored entries that are not
value-equal to an entry already present, truncated to 30. -/
def get_todos (hb : Option (List Str)) (stored : List TodoItem) : List TodoItem :=
  (preTodos hb stored).take 30

/-- The configured credentials (`DASHBOARD_USER` / `DASHBOARD_PASS`,
environment variables with hardcoded defaults). -/
structure Config where
  user : Str
  pw : Str

/-- The basic-auth credentials submitted with a request. -/
structure Credentials where
  username : Str
  password : Str

/-- An `HTTPException` as raised by `verify_auth`. -/
structure HTTPError where
  status : Nat
  wwwAuthenticate : Option Str
deriving DecidableEq

/-- The 401 response raised on bad credentials, with its
`WWW-Authenticate: Basic` challenge header. -/
def unauthorized : HTTPError := ⟨401, some (str "Basic")⟩

/-- `verify_auth`: compare username then password against the configured
secrets (`secrets.compare_digest` is functionally string equality; its
constant-time execution is a timing property outside this embedding) and
raise 401 with the challenge header on either mismatch. -/
def verify_auth (cfg : Config) (creds : Credentials) : Except HTTPError Unit :=
  if creds.username = cfg.user then
    if creds.password = cfg.pw then Except.ok () else Except.error unauthorized
  else Except.error unauthorized

/-- The `POST /api/achievement` request body. -/
structure Achievement where
  text : Str
  period : Str

/-- The `POST /api/todo` request body. -/
structure TodoPost where
  task : Str
  done : Bool

/-- `POST /api/achievement`: after authentication, append the text to the
stored 24h list when `period == "24h"` and to the stored week list
otherwise, then `save_data`.  The result is the document written back;
an authentication failure writes nothing. -/
def add_achievement (cfg : Config) (creds : Credentials) (ach : Achievement)
    (now : Int) (data : PersistedState) : Except HTTPError PersistedState :=
  match verify_auth cfg creds with
  | Except.error e => Except.error e
  | Except.ok _ =>
      if ach.period = str "24h" then
        Except.ok (save_data now
          { data with achievements_24h := data.achievements_24h ++ [ach.text] })
      else
        Except.ok (save_data now
          { data with achievements_week := data.achievements_week ++ [ach.text] })

/-- `POST /api/todo`: after authentication, append `{task, done}` (no
`source` key) to the stored todo list, then `save_data`. -/
def add_todo (cfg : Config) (creds : Credentials) (tp : TodoPost)
    (now : Int) (data : PersistedState) : Except HTTPError PersistedState :=
  match verify_auth cfg creds with
  | Except.error e => Except.error e
  | Except.ok _ =>
      Except.ok (save_data now
        { data with todo := data.todo ++ [⟨tp.task, tp.done, none⟩] })

/-- `POST /api/tokens`: after authentication, replace the persisted
`token_usage` triple wholesale with the supplied query values, then
`save_data`. -/
def update_tokens (cfg : Config) (creds : Credentials)
    (total today week : Int) (now : Int) (data : PersistedState) :
    Except HTTPError PersistedState :=
  match verify_auth cfg creds with
  | Except.error e => Except.error e
  | Except.ok _ =>
      Except.ok (save_data now { data with token_usage := ⟨total, today, week⟩ })

/-- `GET /`: the dashboard page.  Rendering is out of scope; the model
keeps only the authentication gate. -/
def dashboard (cfg : Config) (creds : Credentials) : Except HTTPError Unit :=
  verify_auth cfg creds

/-! ### Helper lemmas about the string primitives -/

theorem isPrefixOf_iff_exists (p : Str) :
    ∀ s : Str, p.isPrefixOf s = true ↔ ∃ r, s = p ++ r := by
  induction p with
  | nil =>
      intro s
      simp [List.isPrefixOf]
  | cons a as ih =>
      intro s
      cases s with
      | nil => simp [List.isPrefixOf]
      | cons b bs =>
          simp only [List.isPrefixOf, Bool.and_eq_true, beq_iff_eq, ih,
            List.cons_append, List.cons.injEq]
          constructor
          · rintro ⟨rfl, r, rfl⟩
            exact ⟨r, rfl, rfl⟩
          · rintro ⟨r, rfl, rfl⟩
            exact ⟨rfl, r, rfl⟩

theorem containsSub_iff_exists (pat s : Str) :
    containsSub pat s = true ↔ ∃ u v, s = u ++ pat ++ v := by
  induction s with
  | nil =>
      rw [containsSub, List.isEmpty_iff]
      constructor
      · rintro rfl
        exact ⟨[], [], rfl⟩
      · rintro ⟨u, v, huv⟩
        rcases List.append_eq_nil.mp huv.symm with ⟨h1, -⟩
        exact (List.append_eq_nil.mp h1).2
  | cons c rest ih =>
      rw [containsSub, Bool.or_eq_true, isPrefixOf_iff_exists, ih]
      constructor
      · rintro (⟨v, hv⟩ | ⟨u, v, huv⟩)
        · exact ⟨[], v, by simpa using hv⟩
        · exact ⟨c :: u, v, by simp [huv]⟩
      · rintro ⟨u, v, huv⟩
        cases u with
        | nil => exact Or.inl ⟨v, by simpa using huv⟩
        | cons x u =>
            simp only [List.cons_append, List.cons.injEq] at huv
            exact Or.inr ⟨u, v, huv.2⟩

theorem dropWhile_dropWhile (p : Char → Bool) (l : Str) :
    (l.dropWhile p).dropWhile p = l.dropWhile p := by
  induction l with
  | nil => rfl
  | cons c t ih =>
      cases hpc : p c with
      | true => simp [List.dropWhile_cons, hpc, ih]
      | false => simp [List.dropWhile_cons, hpc]

theorem rstripWs_append (l t : Str) :
    rstripWs (l ++ t) = if rstripWs t = [] then rstripWs l else l ++ rstripWs t := by
  unfold rstripWs
  rw [List.reverse_append, List.dropWhile_append]
  rcases hE : t.reverse.dropWhile isWs with _ | ⟨c, cs⟩
  · simp [hE]
  · simp [hE, List.reverse_append]

theorem rstripWs_idem (t : Str) : rstripWs (rstripWs t) = rstripWs t := by
  simp [rstripWs, List.reverse_reverse, dropWhile_dropWhile]

theorem lstripWs_eq_nil (t : Str) (h : rstripWs t = []) : lstripWs t = [] := by
  have h0 : t.reverse.dropWhile isWs = [] := by
    have := congrArg List.reverse h
    simpa [rstripWs, List.reverse_reverse] using this
  have h1 : ∀ x ∈ t.reverse, isWs x := List.dropWhile_eq_nil_iff.mp h0
  exact List.dropWhile_eq_nil_iff.mpr (fun x hx => h1 x (List.mem_reverse.mpr hx))

theorem lstripWs_cons_false (c : Char) (t : Str) (h : isWs c = false) :
    lstripWs (c :: t) = c :: t := by
  simp [lstripWs, List.dropWhile_cons, h]

theorem lstripWs_cons_true (c : Char) (t : Str) (h : isWs c = true) :
    lstripWs (c :: t) = lstripWs t := by
  simp [lstripWs, List.dropWhile_cons, h]

theorem strip_ws_cons (c : Char) (t : Str) (h : isWs c = true) :
    strip (c :: t) = strip t := by
  simp [strip, lstripWs_cons_true c t h]

theorem strip_rstripWs (t : Str) : strip (rstripWs t) = strip t := by
  induction t with
  | nil => rfl
  | cons c t ih =>
      have hsplit := rstripWs_append [c] t
      cases hws : isWs c with
      | true =>
          have hrc : rstripWs [c] = [] := by
            simp [rstripWs, List.dropWhile, hws]
          by_cases ht : rstripWs t = []
          · have h1 : rstripWs (c :: t) = [] := by
              rw [show c :: t = [c] ++ t from rfl, hsplit, if_pos ht]
              exact hrc
            rw [h1, strip_ws_cons c t hws]
            have h2 := lstripWs_eq_nil t ht
            show rstripWs (lstripWs []) = rstripWs (lstripWs t)
            rw [h2]
            rfl
          · have h1 : rstripWs (c :: t) = [c] ++ rstripWs t := by
              rw [show c :: t = [c] ++ t from rfl, hsplit, if_neg ht]
            rw [h1, show [c] ++ rstripWs t = c :: rstripWs t from rfl,
              strip_ws_cons c _ hws, ih, strip_ws_cons c t hws]
      | false =>
          have hrc : rstripWs [c] = [c] := by
            simp [rstripWs, List.dropWhile, hws]
          by_cases ht : rstripWs t = []
          · have h1 : rstripWs (c :: t) = [c] := by
              rw [show c :: t = [c] ++ t from rfl, hsplit, if_pos ht]
              exact hrc
            rw [h1]
            show rstripWs (lstripWs [c]) = rstripWs (lstripWs (c :: t))
            rw [lstripWs_cons_false c [] hws, lstripWs_cons_false c t hws, hrc, h1]
          · have h1 : rstripWs (c :: t) = [c] ++ rstripWs t := by
              rw [show c :: t = [c] ++ t from rfl, hsplit, if_neg ht]
            rw [h1]
            show rstripWs (lstripWs ([c] ++ rstripWs t)) = rstripWs (lstripWs (c :: t))
            rw [show [c] ++ rstripWs t = c :: rstripWs t from rfl,
              lstripWs_cons_false c _ hws, lstripWs_cons_false c t hws,
              show c :: rstripWs t = [c] ++ rstripWs t from rfl,
              rstripWs_append, rstripWs_idem, if_neg ht, h1]

theorem parseHeartbeat_notDone (t : Str) :
    parseHeartbeatLine (str "- [ ] " ++ t) =
      some ⟨strip t, false, some heartbeatSource⟩ := by
  rw [show str "- [ ] " = ['-', ' ', '[', ' ', ']', ' '] from rfl]
  have hls : lstripWs ((['-', ' ', '[', ' ', ']', ' '] : Str) ++ t) =
      ['-', ' ', '[', ' ', ']', ' '] ++ t := by
    rw [show (['-', ' ', '[', ' ', ']', ' '] : Str) ++ t =
      '-' :: ([' ', '[', ' ', ']', ' '] ++ t) from rfl]
    exact lstripWs_cons_false _ _ (by decide)
  have hr := rstripWs_append (['-', ' ', '[', ' ', ']', ' '] : Str) t
  by_cases ht : rstripWs t = []
  · rw [if_pos ht] at hr
    have hstrip : strip ((['-', ' ', '[', ' ', ']', ' '] : Str) ++ t) =
        ['-', ' ', '[', ' ', ']'] := by
      unfold strip
      rw [hls, hr]
      decide
    have hstript : strip t = [] := by
      unfold strip
      rw [lstripWs_eq_nil t ht]
      rfl
    rw [hstript]
    simp only [parseHeartbeatLine, hstrip]
    decide
  · rw [if_neg ht] at hr
    have hstrip : strip ((['-', ' ', '[', ' ', ']', ' '] : Str) ++ t) =
        ['-', ' ', '[', ' ', ']', ' '] ++ rstripWs t := by
      unfold strip
      rw [hls, hr]
    simp only [parseHeartbeatLine, hstrip]
    have hpre : (str "- [ ]").isPrefixOf
        ((['-', ' ', '[', ' ', ']', ' '] : Str) ++ rstripWs t) = true := by
      simp [List.isPrefixOf, str]
    rw [if_pos hpre]
    rw [show ((['-', ' ', '[', ' ', ']', ' '] : Str) ++ rstripWs t).drop 5 =
      ' ' :: rstripWs t from rfl]
    rw [strip_ws_cons _ _ (by decide), strip_rstripWs]

theorem parseHeartbeat_done (t : Str) :
    parseHeartbeatLine (str "- [x] " ++ t) =
      some ⟨strip t, true, some heartbeatSource⟩ := by
  rw [show str "- [x] " = ['-', ' ', '[', 'x', ']', ' '] from rfl]
  have hls : lstripWs ((['-', ' ', '[', 'x', ']', ' '] : Str) ++ t) =
      ['-', ' ', '[', 'x', ']', ' '] ++ t := by
    rw [show (['-', ' ', '[', 'x', ']', ' '] : Str) ++ t =
      '-' :: ([' ', '[', 'x', ']', ' '] ++ t) from rfl]
    exact lstripWs_cons_false _ _ (by decide)
  have hr := rstripWs_append (['-', ' ', '[', 'x', ']', ' '] : Str) t
  by_cases ht : rstripWs t = []
  · rw [if_pos ht] at hr
    have hstrip : strip ((['-', ' ', '[', 'x', ']', ' '] : Str) ++ t) =
        ['-', ' ', '[', 'x', ']'] := by
      unfold strip
      rw [hls, hr]
      decide
    have hstript : strip t = [] := by
      unfold strip
      rw [lstripWs_eq_nil t ht]
      rfl
    rw [hstript]
    simp only [parseHeartbeatLine, hstrip]
    decide
  · rw [if_neg ht] at hr
    have hstrip : strip ((['-', ' ', '[', 'x', ']', ' '] : Str) ++ t) =
        ['-', ' ', '[', 'x', ']', ' '] ++ rstripWs t := by
      unfold strip
      rw [hls, hr]
    simp only [parseHeartbeatLine, hstrip]
    have hpre0 : (str "- [ ]").isPrefixOf
        ((['-', ' ', '[', 'x', ']', ' '] : Str) ++ rstripWs t) = false := by
      simp [List.isPrefixOf, str]
    have hpre : (str "- [x]").isPrefixOf
        ((['-', ' ', '[', 'x', ']', ' '] : Str) ++ rstripWs t) = true := by
      simp [List.isPrefixOf, str]
    rw [if_neg (by rw [hpre0]; exact Bool.false_ne_true), if_pos hpre]
    rw [show ((['-', ' ', '[', 'x', ']', ' '] : Str) ++ rstripWs t).drop 5 =
      ' ' :: rstripWs t from rfl]
    rw [strip_ws_cons _ _ (by decide), strip_rstripWs]

/-! ### Helper lemmas about the todo aggregation -/

theorem parseHeartbeatLine_source (line : Str) (x : TodoItem)
    (h : parseHeartbeatLine line = some x) : x.source = some heartbeatSource := by
  simp only [parseHeartbeatLine] at h
  split_ifs at h <;> cases h <;> rfl

theorem heartbeatTodos_source (hb : Option (List Str)) (x : TodoItem)
    (h : x ∈ heartbeatTodos hb) : x.source = some heartbeatSource := by
  cases hb with
  | none => simp [heartbeatTodos] at h
  | some lines =>
      rcases List.mem_filterMap.mp h with ⟨l, -, hl⟩
      exact parseHeartbeatLine_source l x hl

theorem appendStored_eq_append (l : List TodoItem) :
    ∀ acc, appendStored acc l = acc ++ newTodos acc l := by
  induction l with
  | nil => intro acc; simp [appendStored, newTodos]
  | cons t rest ih =>
      intro acc
      rw [appendStored, newTodos]
      by_cases h : t ∈ acc
      · rw [if_pos h, if_pos h, ih]
      · rw [if_neg h, if_neg h, ih, List.append_assoc]
        rfl

theorem mem_newTodos (l : List TodoItem) :
    ∀ acc x, x ∈ newTodos acc l → x ∉ acc ∧ x ∈ l := by
  induction l with
  | nil => intro acc x hx; simp [newTodos] at hx
  | cons t rest ih =>
      intro acc x hx
      rw [newTodos] at hx
      by_cases h : t ∈ acc
      · rw [if_pos h] at hx
        rcases ih acc x hx with ⟨h1, h2⟩
        exact ⟨h1, List.mem_cons_of_mem t h2⟩
      · rw [if_neg h] at hx
        rcases List.mem_cons.mp hx with rfl | hx2
        · exact ⟨h, List.mem_cons_self x rest⟩
        · rcases ih (acc ++ [t]) x hx2 with ⟨h1, h2⟩
          exact ⟨fun hc => h1 (List.mem_append_left _ hc), List.mem_cons_of_mem t h2⟩

theorem newTodos_nodup (l : List TodoItem) : ∀ acc, (newTodos acc l).Nodup := by
  induction l with
  | nil => intro acc; simp [newTodos]
  | cons t rest ih =>
      intro acc
      rw [newTodos]
      by_cases h : t ∈ acc
      · rw [if_pos h]
        exact ih acc
      · rw [if_neg h]
        refine List.nodup_cons.mpr ⟨fun hc => ?_, ih (acc ++ [t])⟩
        exact (mem_newTodos rest (acc ++ [t]) t hc).1 (List.mem_append_right _ (by simp))

theorem mem_appendStored_of_mem (l : List TodoItem) :
    ∀ acc x, x ∈ l → x ∈ appendStored acc l := by
  induction l with
  | nil => intro acc x hx; simp at hx
  | cons t rest ih =>
      intro acc x hx
      rw [appendStored]
      by_cases h : t ∈ acc
      · rw [if_pos h]
        rcases List.mem_cons.mp hx with rfl | hx2
        · rw [appendStored_eq_append]
          exact List.mem_append_left _ h
        · exact ih acc x hx2
      · rw [if_neg h]
        rcases List.mem_cons.mp hx with rfl | hx2
        · rw [appendStored_eq_append]
          exact List.mem_append_left _ (List.mem_append_right _ (by simp))
        · exact ih (acc ++ [t]) x hx2

theorem mem_appendStored_iff (l acc : List TodoItem) (x : TodoItem) :
    x ∈ appendStored acc l ↔ x ∈ acc ∨ x ∈ l := by
  constructor
  · intro hx
    rw [appendStored_eq_append] at hx
    rcases List.mem_append.mp hx with h | h
    · exact Or.inl h
    · exact Or.inr (mem_newTodos l acc x h).2
  · rintro (h | h)
    · rw [appendStored_eq_append]
      exact List.mem_append_left _ h
    · exact mem_appendStored_of_mem l acc x h

/-! ### Helper lemmas about the date arithmetic -/

theorem daysBetween_lt_iff (now d k : Int) :
    daysBetween now d < k ↔ now - d < k * secondsPerDay := by
  unfold daysBetween secondsPerDay
  rw [Int.fdiv_eq_ediv _ (by norm_num)]
  omega

theorem count_eq_one_of_nodup_mem (l : List Str) (a : Str) (hd : l.Nodup)
    (ha : a ∈ l) : l.count a = 1 := by
  induction l with
  | nil => cases ha
  | cons b l ih =>
      rcases List.nodup_cons.mp hd with ⟨hb, hl⟩
      rcases List.mem_cons.mp ha with rfl | hm
      · rw [List.count_cons_self, List.count_eq_zero.mpr hb]
      · have hne : a ≠ b := fun h => hb (h ▸ hm)
        rw [List.count_cons_of_ne hne, ih hl hm]

/-! ### Claim theorems -/

/-- Claim C1, counterexample: with no note files and a persisted state whose
stored 24h list holds "solo" and whose stored week list is empty, "solo" is
appended to the 24-hour pre-dedup list but appears neither in the 7-day
pre-dedup list nor in the returned 7-day list — the aggregator does not
append each manually-added achievement to both lists. -/
theorem claim_C1_counterexample :
    str "solo" ∈ pre24h 0 [] ⟨⟨0, 0, 0⟩, [str "solo"], [], [], none⟩ ∧
    str "solo" ∉ preWeek 0 [] ⟨⟨0, 0, 0⟩, [str "solo"], [], [], none⟩ ∧
    str "solo" ∉ (get_achievements 0 [] ⟨⟨0, 0, 0⟩, [str "solo"], [], [], none⟩).2 := by
  decide

/-- Claim C1 (amended): the aggregator appends every achievement of the stored
24h list to the 24-hour result list and every achievement of the stored week
list to the 7-day result list (each before dedup/truncation), unconditionally;
a stored achievement reaches only its own window's list. -/
theorem claim_C1 (now : Int) (files : List NoteFile) (data : PersistedState)
    (a : Str) :
    (a ∈ data.achievements_24h → a ∈ pre24h now files data) ∧
    (a ∈ data.achievements_week → a ∈ preWeek now files data) :=
  ⟨fun h => List.mem_append_right _ h, fun h => List.mem_append_right _ h⟩

/-- Claim C1, witness: the amended theorem applied at a concrete state. -/
theorem claim_C1_witness :
    str "a" ∈ pre24h 0 [] ⟨⟨0, 0, 0⟩, [str "a"], [], [], none⟩ :=
  (claim_C1 0 [] ⟨⟨0, 0, 0⟩, [str "a"], [], [], none⟩ (str "a")).1 (by decide)

/-- Claim C2, counterexample: the content `[]` parses as JSON (an array), yet
the resolver's output depends on the persisted counters — Python's `.get` on
the parsed list raises `AttributeError`, the bare `except` swallows it, and
the persisted counters win, contradicting "returns the triple read from the
stats file regardless of the persisted counters" for every content that
parses as JSON. -/
theorem claim_C2_counterexample :
    get_token_usage (some (some (Json.arr []))) ⟨⟨5, 1, 2⟩, [], [], [], none⟩ ≠
      get_token_usage (some (some (Json.arr []))) ⟨⟨0, 0, 0⟩, [], [], [], none⟩ := by
  intro h
  simp [get_token_usage, storedTriple] at h

/-- Claim C2 (amended): for stats-file content that parses as a JSON object the
resolver returns the triple of the object's `total_tokens` / `today_tokens` /
`week_tokens` values (default 0), regardless of the persisted counters; when
the file is absent, reading/parsing raises, or the parsed value is not an
object, it returns exactly the persisted `token_usage` triple. -/
theorem claim_C2 (fields : List (Str × Json)) (j : Json) (data : PersistedState)
    (hj : ∀ fs, j ≠ Json.obj fs) :
    get_token_usage (some (some (Json.obj fields))) data =
      (jget fields (str "total_tokens") (Json.num 0),
       jget fields (str "today_tokens") (Json.num 0),
       jget fields (str "week_tokens") (Json.num 0)) ∧
    get_token_usage (some (some j)) data = storedTriple data ∧
    get_token_usage (some none) data = storedTriple data ∧
    get_token_usage none data = storedTriple data := by
  refine ⟨rfl, ?_, rfl, rfl⟩
  cases j with
  | num n => rfl
  | jstr s => rfl
  | jbool b => rfl
  | null => rfl
  | arr es => rfl
  | obj fs => exact absurd rfl (hj fs)

/-- Claim C2, witness: the amended theorem applied at a parsed non-object
value and a concrete persisted state. -/
theorem claim_C2_witness :
    get_token_usage (some (some (Json.jstr (str "oops"))))
        ⟨⟨5, 1, 2⟩, [], [], [], none⟩ =
      storedTriple ⟨⟨5, 1, 2⟩, [], [], [], none⟩ :=
  (claim_C2 [] (Json.jstr (str "oops")) ⟨⟨5, 1, 2⟩, [], [], [], none⟩
    (fun _ h => Json.noConfusion h)).2.1

/-- Claim C3: for a note file whose name parses as a date, an extracted marked
line lands in the 24-hour pre-dedup list when the file date is within one day
of now and in the 7-day pre-dedup list when within seven days (a same-day item
lands in both), while a file dated more than seven days before now contributes
to neither list. -/
theorem claim_C3 (now d : Int) (lines : List Str) (a : Str)
    (files : List NoteFile) (data : PersistedState) :
    ((⟨some d, lines⟩ : NoteFile) ∈ files →
      a ∈ lines.filterMap extractAchievement →
      ((0 ≤ now - d → now - d < secondsPerDay →
          a ∈ pre24h now files data ∧ a ∈ preWeek now files data) ∧
       (0 ≤ now - d → now - d < 7 * secondsPerDay →
          a ∈ preWeek now files data))) ∧
    (7 * secondsPerDay < now - d →
      fileAchievements24h now ⟨some d, lines⟩ = [] ∧
      fileAchievementsWeek now ⟨some d, lines⟩ = []) := by
  have hsec : secondsPerDay = 86400 := rfl
  constructor
  · intro hf ha
    have hmem24 : daysBetween now d < 1 → a ∈ pre24h now files data := by
      intro hc
      refine List.mem_append_left _
        (List.mem_flatten.mpr ⟨_, List.mem_map_of_mem _ hf, ?_⟩)
      simpa [fileAchievements24h, hc] using ha
    have hmemW : daysBetween now d < 7 → a ∈ preWeek now files data := by
      intro hc
      refine List.mem_append_left _
        (List.mem_flatten.mpr ⟨_, List.mem_map_of_mem _ hf, ?_⟩)
      simpa [fileAchievementsWeek, hc] using ha
    constructor
    · intro h0 h1
      refine ⟨hmem24 ?_, hmemW ?_⟩
      · rw [daysBetween_lt_iff]
        omega
      · rw [daysBetween_lt_iff]
        omega
    · intro h0 h7
      apply hmemW
      rw [daysBetween_lt_iff]
      omega
  · intro h7
    have hc7 : ¬ daysBetween now d < 7 := by
      rw [daysBetween_lt_iff]
      omega
    have hc1 : ¬ daysBetween now d < 1 := by
      rw [daysBetween_lt_iff]
      omega
    exact ⟨by simp [fileAchievements24h, hc1], by simp [fileAchievementsWeek, hc7]⟩

/-- Claim C3, witness: a same-day marked line appears in both pre-dedup lists. -/
theorem claim_C3_witness :
    str "shipped feature" ∈
      pre24h 43200 [⟨some 0, [str "- [x] shipped feature"]⟩]
        ⟨⟨0, 0, 0⟩, [], [], [], none⟩ ∧
    str "shipped feature" ∈
      preWeek 43200 [⟨some 0, [str "- [x] shipped feature"]⟩]
        ⟨⟨0, 0, 0⟩, [], [], [], none⟩ :=
  ((claim_C3 43200 0 [str "- [x] shipped feature"] (str "shipped feature")
      [⟨some 0, [str "- [x] shipped feature"]⟩] ⟨⟨0, 0, 0⟩, [], [], [], none⟩).1
    (by decide) (by decide)).1 (by decide) (by decide)

/-- Claim C4, counterexample: on the line "- [x] x-ray vision" the code
yields "ray vision", not the marker-stripped text "x-ray vision" — the
extraction is Python's `lstrip` with the character set "- [x]✓ ", which also
eats leading text characters that belong to the set, not a removal of the
matched marker. -/
theorem claim_C4_counterexample :
    extractAchievement (str "- [x] x-ray vision") = some (str "ray vision") ∧
    strip ((strip (str "- [x] x-ray vision")).drop 5) = str "x-ray vision" ∧
    str "ray vision" ≠ str "x-ray vision" := by
  decide

/-- Claim C4 (amended): a line is selected exactly when its stripped form
starts with "- [x]", starts with the checkmark glyph, or contains "completed"
case-insensitively; the extracted achievement is the stripped line with all
leading characters of the set "- [x]✓ " removed and then whitespace-trimmed
(Python `lstrip` char-set semantics, not marker removal), with empty results
discarded. -/
theorem claim_C4 (line : Str) :
    (extractAchievement line ≠ none →
      ((∃ r, strip line = str "- [x]" ++ r) ∨ (∃ r, strip line = str "✓" ++ r) ∨
       (∃ u v, lower (strip line) = u ++ str "completed" ++ v))) ∧
    (((∃ r, strip line = str "- [x]" ++ r) ∨ (∃ r, strip line = str "✓" ++ r) ∨
      (∃ u v, lower (strip line) = u ++ str "completed" ++ v)) →
      extractAchievement line =
        (if strip (lstripSet achievementStripChars (strip line)) = [] then none
         else some (strip (lstripSet achievementStripChars (strip line))))) ∧
    (∀ a, extractAchievement line = some a → a ≠ []) := by
  have hiff : hasMarker (strip line) = true ↔
      ((∃ r, strip line = str "- [x]" ++ r) ∨ (∃ r, strip line = str "✓" ++ r) ∨
       (∃ u v, lower (strip line) = u ++ str "completed" ++ v)) := by
    rw [hasMarker, Bool.or_eq_true, Bool.or_eq_true, isPrefixOf_iff_exists,
      isPrefixOf_iff_exists, containsSub_iff_exists]
    tauto
  by_cases h : hasMarker (strip line) = true
  · refine ⟨fun _ => hiff.mp h, fun _ => ?_, fun a ha => ?_⟩
    · simp [extractAchievement, h]
    · by_cases hX : strip (lstripSet achievementStripChars (strip line)) = []
      · simp [extractAchievement, h, hX] at ha
      · simp [extractAchievement, h, hX] at ha
        rw [← ha]
        exact hX
  · have hf : hasMarker (strip line) = false := by
      revert h
      cases hasMarker (strip line) <;> simp
    have hext : extractAchievement line = none := by
      simp [extractAchievement, hf]
    refine ⟨fun hne => absurd hext hne, fun hdis => absurd (hiff.mpr hdis) h,
      fun a ha => ?_⟩
    rw [hext] at ha
    cases ha

/-- Claim C4, witness: the amended theorem applied at a concrete marked line. -/
theorem claim_C4_witness :
    extractAchievement (str "- [x] done") =
      (if strip (lstripSet achievementStripChars (strip (str "- [x] done"))) = []
       then none
       else some (strip (lstripSet achievementStripChars (strip (str "- [x] done"))))) :=
  (claim_C4 (str "- [x] done")).2.1 (Or.inl ⟨str " done", by decide⟩)

/-- Claim C5: both returned achievement lists are duplicate-free (each text
occurs at most once, and exactly once whenever truncation does not intervene)
and respect the caps of 20 (24-hour list) and 50 (7-day list). -/
theorem claim_C5 (now : Int) (files : List NoteFile) (data : PersistedState) :
    (get_achievements now files data).1.Nodup ∧
    (get_achievements now files data).1.length ≤ 20 ∧
    (get_achievements now files data).2.Nodup ∧
    (get_achievements now files data).2.length ≤ 50 ∧
    (∀ a, a ∈ pre24h now files data →
      (pre24h now files data).dedup.length ≤ 20 →
      (get_achievements now files data).1.count a = 1) ∧
    (∀ a, a ∈ preWeek now files data →
      (preWeek now files data).dedup.length ≤ 50 →
      (get_achievements now files data).2.count a = 1) := by
  refine ⟨?_, ?_, ?_, ?_, ?_, ?_⟩
  · exact List.Nodup.sublist (List.take_sublist _ _) (List.nodup_dedup _)
  · exact List.length_take_le _ _
  · exact List.Nodup.sublist (List.take_sublist _ _) (List.nodup_dedup _)
  · exact List.length_take_le _ _
  · intro a ha hlen
    show ((pre24h now files data).dedup.take 20).count a = 1
    rw [List.take_of_length_le hlen]
    exact count_eq_one_of_nodup_mem _ a (List.nodup_dedup _) (List.mem_dedup.mpr ha)
  · intro a ha hlen
    show ((preWeek now files data).dedup.take 50).count a = 1
    rw [List.take_of_length_le hlen]
    exact count_eq_one_of_nodup_mem _ a (List.nodup_dedup _) (List.mem_dedup.mpr ha)

/-- Claim C5, witness: a text present twice before dedup occurs exactly once
in the returned list. -/
theorem claim_C5_witness :
    (get_achievements 0 [] ⟨⟨0, 0, 0⟩, [str "a", str "a"], [], [], none⟩).1.count
      (str "a") = 1 :=
  (claim_C5 0 [] ⟨⟨0, 0, 0⟩, [str "a", str "a"], [], [], none⟩).2.2.2.2.1
    (str "a") (by decide) (by decide)

/-- Claim C6: the todo aggregator maps a stripped heartbeat line
"- [ ] text" to a not-done entry and "- [x] text" to a done entry, both
tagged with source "heartbeat" and carrying the trimmed text; it then appends
the stored todo records that are not value-equal to an entry already present
(the comparison list growing as it appends, so exact duplicates are skipped),
truncates to at most 30 entries, and a todo posted via the API is stored as
`{task, done}` with no source field. -/
theorem claim_C6 (t : Str) (hb : List Str) (stored : List TodoItem)
    (cfg : Config) (creds : Credentials) (tp : TodoPost) (now : Int)
    (data : PersistedState)
    (hu : creds.username = cfg.user) (hpw : creds.password = cfg.pw) :
    parseHeartbeatLine (str "- [ ] " ++ t) =
      some ⟨strip t, false, some heartbeatSource⟩ ∧
    parseHeartbeatLine (str "- [x] " ++ t) =
      some ⟨strip t, true, some heartbeatSource⟩ ∧
    (∃ rest, preTodos (some hb) stored = heartbeatTodos (some hb) ++ rest ∧
      rest.Nodup ∧ ∀ x ∈ rest, x ∉ heartbeatTodos (some hb) ∧ x ∈ stored) ∧
    (∀ x, x ∈ preTodos (some hb) stored ↔
      x ∈ heartbeatTodos (some hb) ∨ x ∈ stored) ∧
    (∀ x, x ∈ stored → (preTodos (some hb) stored).length ≤ 30 →
      x ∈ get_todos (some hb) stored) ∧
    get_todos (some hb) stored = (preTodos (some hb) stored).take 30 ∧
    (get_todos (some hb) stored).length ≤ 30 ∧
    add_todo cfg creds tp now data =
      Except.ok { data with todo := data.todo ++ [⟨tp.task, tp.done, none⟩],
                            last_updated := some now } ∧
    (⟨tp.task, tp.done, none⟩ : TodoItem).source = none ∧
    ((⟨tp.task, tp.done, none⟩ : TodoItem) ∈ stored →
      (preTodos (some hb) stored).length ≤ 30 →
      (⟨tp.task, tp.done, none⟩ : TodoItem) ∈ get_todos (some hb) stored) := by
  have hres : ∀ x, x ∈ stored → (preTodos (some hb) stored).length ≤ 30 →
      x ∈ get_todos (some hb) stored := by
    intro x hx hlen
    show x ∈ (preTodos (some hb) stored).take 30
    rw [List.take_of_length_le hlen]
    exact mem_appendStored_of_mem stored _ x hx
  refine ⟨parseHeartbeat_notDone t, parseHeartbeat_done t, ?_,
    fun x => mem_appendStored_iff stored _ x, hres, rfl,
    List.length_take_le _ _, ?_, rfl, hres _⟩
  · exact ⟨newTodos (heartbeatTodos (some hb)) stored,
      appendStored_eq_append stored _,
      newTodos_nodup stored _,
      fun x hx => mem_newTodos stored _ x hx⟩
  · have hv : verify_auth cfg creds = Except.ok () := by
      unfold verify_auth
      rw [if_pos hu, if_pos hpw]
    simp [add_todo, hv, save_data]

/-- Claim C6, witness: at a concrete heartbeat file and stored list, the claim
theorem yields the heartbeat line mapping and puts the API-posted sourceless
todo record into the returned todo list. -/
theorem claim_C6_witness :
    parseHeartbeatLine (str "- [ ] " ++ str "wash car") =
      some ⟨strip (str "wash car"), false, some heartbeatSource⟩ ∧
    (⟨str "buy milk", false, none⟩ : TodoItem) ∈
      get_todos (some [str "- [ ] wash car"]) [⟨str "buy milk", false, none⟩] :=
  ⟨(claim_C6 (str "wash car") [str "- [ ] wash car"]
      [⟨str "buy milk", false, none⟩] ⟨str "kai", str "pw"⟩ ⟨str "kai", str "pw"⟩
      ⟨str "buy milk", false⟩ 0 ⟨⟨0, 0, 0⟩, [], [], [], none⟩ rfl rfl).1,
   (claim_C6 (str "wash car") [str "- [ ] wash car"]
      [⟨str "buy milk", false, none⟩] ⟨str "kai", str "pw"⟩ ⟨str "kai", str "pw"⟩
      ⟨str "buy milk", false⟩ 0 ⟨⟨0, 0, 0⟩, [], [], [], none⟩ rfl rfl).2.2.2.2.2.2.2.2.2
     (by decide) (by decide)⟩

/-- Claim C7: with a username or password that does not match the configured
credentials, authentication fails with status 401 and a `WWW-Authenticate:
Basic` challenge header, and every endpoint — the dashboard page and all three
mutation endpoints — returns that error, so no mutation endpoint produces a
written state. -/
theorem claim_C7 (cfg : Config) (creds : Credentials)
    (h : creds.username ≠ cfg.user ∨ creds.password ≠ cfg.pw) :
    unauthorized.status = 401 ∧
    unauthorized.wwwAuthenticate = some (str "Basic") ∧
    verify_auth cfg creds = Except.error unauthorized ∧
    dashboard cfg creds = Except.error unauthorized ∧
    (∀ ach now data,
      add_achievement cfg creds ach now data = Except.error unauthorized) ∧
    (∀ tp now data, add_todo cfg creds tp now data = Except.error unauthorized) ∧
    (∀ total today week now data,
      update_tokens cfg creds total today week now data =
        Except.error unauthorized) := by
  have hv : verify_auth cfg creds = Except.error unauthorized := by
    unfold verify_auth
    rcases h with h | h
    · rw [if_neg h]
    · by_cases hu : creds.username = cfg.user
      · rw [if_pos hu, if_neg h]
      · rw [if_neg hu]
  refine ⟨rfl, rfl, hv, hv, ?_, ?_, ?_⟩
  · intro ach now data
    simp [add_achievement, hv]
  · intro tp now data
    simp [add_todo, hv]
  · intro total today week now data
    simp [update_tokens, hv]

/-- Claim C7, witness: the theorem applied at concrete wrong credentials. -/
theorem claim_C7_witness :
    verify_auth ⟨str "kai", str "pw"⟩ ⟨str "mallory", str "pw"⟩ =
      Except.error unauthorized :=
  (claim_C7 ⟨str "kai", str "pw"⟩ ⟨str "mallory", str "pw"⟩
    (Or.inl (by decide))).2.2.1

/-- Claim C8: every authenticated mutation rewrites the document with exactly
one content field changed plus the `last_updated` stamp — all other fields of
the prior document are preserved by the record update — and the token mutation
replaces the whole `token_usage` triple with the supplied values rather than
incrementing. -/
theorem claim_C8 (cfg : Config) (creds : Credentials)
    (hu : creds.username = cfg.user) (hpw : creds.password = cfg.pw)
    (now : Int) (data : PersistedState) :
    (∀ ach : Achievement, ach.period = str "24h" →
      add_achievement cfg creds ach now data =
        Except.ok { data with
          achievements_24h := data.achievements_24h ++ [ach.text],
          last_updated := some now }) ∧
    (∀ ach : Achievement, ach.period ≠ str "24h" →
      add_achievement cfg creds ach now data =
        Except.ok { data with
          achievements_week := data.achievements_week ++ [ach.text],
          last_updated := some now }) ∧
    (∀ tp : TodoPost,
      add_todo cfg creds tp now data =
        Except.ok { data with
          todo := data.todo ++ [⟨tp.task, tp.done, none⟩],
          last_updated := some now }) ∧
    (∀ total today week : Int,
      update_tokens cfg creds total today week now data =
        Except.ok { data with
          token_usage := ⟨total, today, week⟩,
          last_updated := some now }) := by
  have hv : verify_auth cfg creds = Except.ok () := by
    unfold verify_auth
    rw [if_pos hu, if_pos hpw]
  refine ⟨?_, ?_, ?_, ?_⟩
  · intro ach hper
    simp [add_achievement, hv, hper, save_data]
  · intro ach hper
    simp [add_achievement, hv, hper, save_data]
  · intro tp
    simp [add_todo, hv, save_data]
  · intro total today week
    simp [update_tokens, hv, save_data]

/-- Claim C8, witness: the token mutation at concrete values replaces the
stored triple wholesale and stamps the timestamp. -/
theorem claim_C8_witness :
    update_tokens ⟨str "kai", str "pw"⟩ ⟨str "kai", str "pw"⟩ 100 10 50 7
        ⟨⟨1, 2, 3⟩, [], [], [], none⟩ =
      Except.ok ⟨⟨100, 10, 50⟩, [], [], [], some 7⟩ :=
  (claim_C8 ⟨str "kai", str "pw"⟩ ⟨str "kai", str "pw"⟩ rfl rfl 7
    ⟨⟨1, 2, 3⟩, [], [], [], none⟩).2.2.2 100 10 50

/-- Claim C9: an authenticated achievement post whose period is anything
other than the exact string "24h" appends the text to the persisted week
list, and only the exact string "24h" appends to the persisted 24h list. -/
theorem claim_C9 (cfg : Config) (creds : Credentials)
    (hu : creds.username = cfg.user) (hpw : creds.password = cfg.pw)
    (now : Int) (data : PersistedState) (text period : Str) :
    (period ≠ str "24h" →
      add_achievement cfg creds ⟨text, period⟩ now data =
        Except.ok { data with
          achievements_week := data.achievements_week ++ [text],
          last_updated := some now }) ∧
    (period = str "24h" →
      add_achievement cfg creds ⟨text, period⟩ now data =
        Except.ok { data with
          achievements_24h := data.achievements_24h ++ [text],
          last_updated := some now }) := by
  have hv : verify_auth cfg creds = Except.ok () := by
    unfold verify_auth
    rw [if_pos hu, if_pos hpw]
  constructor
  · intro hper
    simp [add_achievement, hv, hper, save_data]
  · intro hper
    simp [add_achievement, hv, hper, save_data]

/-- Claim C9, witness: the period "week" and the empty period both route to
the week list. -/
theorem claim_C9_witness :
    add_achievement ⟨str "kai", str "pw"⟩ ⟨str "kai", str "pw"⟩
        ⟨str "did it", str "week"⟩ 7 ⟨⟨0, 0, 0⟩, [], [], [], none⟩ =
      Except.ok ⟨⟨0, 0, 0⟩, [], [str "did it"], [], some 7⟩ :=
  (claim_C9 ⟨str "kai", str "pw"⟩ ⟨str "kai", str "pw"⟩ rfl rfl 7
    ⟨⟨0, 0, 0⟩, [], [], [], none⟩ (str "did it") (str "week")).1 (by decide)

/-- Claim C10: a stored todo without a `source` key is never value-equal to a
heartbeat-derived entry (whose `source` is "heartbeat"), so the containment
dedupe never suppresses a stored sourceless todo because of a heartbeat
entry: both the heartbeat entry and the stored todo reach the pre-truncation
todo list. -/
theorem claim_C10 (hb : Option (List Str)) (stored : List TodoItem)
    (x y : TodoItem) :
    (y ∈ heartbeatTodos hb → y.source = some heartbeatSource) ∧
    (x.source = none → y ∈ heartbeatTodos hb → x ≠ y) ∧
    (x.source = none → x ∈ stored → x ∈ preTodos hb stored) ∧
    (y ∈ heartbeatTodos hb → y ∈ preTodos hb stored) := by
  refine ⟨heartbeatTodos_source hb y, ?_, ?_, ?_⟩
  · intro hx hy heq
    rw [heq, heartbeatTodos_source hb y hy] at hx
    cases hx
  · intro _ hx
    exact mem_appendStored_of_mem stored _ x hx
  · intro hy
    rw [preTodos, appendStored_eq_append]
    exact List.mem_append_left _ hy

/-- Claim C10, witness: a heartbeat entry and an API-posted todo with the
same task text and done flag are distinct records, and the stored one still
reaches the pre-truncation list. -/
theorem claim_C10_witness :
    (⟨str "buy milk", false, none⟩ : TodoItem) ≠
      ⟨str "buy milk", false, some heartbeatSource⟩ ∧
    (⟨str "buy milk", false, none⟩ : TodoItem) ∈
      preTodos (some [str "- [ ] buy milk"]) [⟨str "buy milk", false, none⟩] :=
  ⟨(claim_C10 (some [str "- [ ] buy milk"]) [⟨str "buy milk", false, none⟩]
      ⟨str "buy milk", false, none⟩ ⟨str "buy milk", false, some heartbeatSource⟩).2.1
    rfl (by decide),
   (claim_C10 (some [str "- [ ] buy milk"]) [⟨str "buy milk", false, none⟩]
      ⟨str "buy milk", false, none⟩ ⟨str "buy milk", false, some heartbeatSource⟩).2.2.1
    rfl (by decide)⟩

end AblentDash
